import Mathlib

/-!
Verification of the event core of `bgw_flipper_ir_serial.c`.

The C program is embedded shallowly:
* machine `uint32_t` values are `Nat` with explicit reduction modulo `2^32`
  (`w32`) exactly where the C arithmetic can wrap;
* the mutable `FlameTunnelState` struct becomes an immutable structure and
  each callback becomes a pure function `State → … → State × List Effect`,
  where the `Effect` trace records, in program order, the calls the C body
  makes to the serial sink, the storage API, the mutex, and the writes to
  shared-state fields.
-/

/-- `2^32` truncation: the value of a C `uint32_t` expression. -/
def w32 (x : Nat) : Nat := x % 4294967296

/-- C unsigned 32-bit subtraction `a - b` (wraps modulo `2^32`);
faithful for operands below `2^32`. -/
def sub32 (a b : Nat) : Nat := (a + 4294967296 - b) % 4294967296

/-- `#define HOLD_TIME_MS 1000` -/
def HOLD_TIME_MS : Nat := 1000

/-- The fixed log path passed to `file_stream_open`. -/
def LOG_PATH : String := "/ext/flame_tunnel.log"

/-- The fields of `FlameTunnelState` (struct at lines 17–26 of the source).
`serial_handle` and `mutex` are external resource handles, not data. -/
structure FlameTunnelState where
  running : Bool
  log_to_file : Bool
  last_rng : Nat
  in_menu : Bool
  back_pressed_time : Nat
  ok_pressed_time : Nat
deriving DecidableEq

/-- Initial state built in `bgw_flipper_ir_serial_app` (lines 104–112). -/
def initState : FlameTunnelState :=
  { running := true
    log_to_file := false
    last_rng := 0
    in_menu := false
    back_pressed_time := 0
    ok_pressed_time := 0 }

/-- `FS_OpenMode` constants of the Flipper storage API that
`file_stream_open` accepts.  `openAlways` opens the file (creating it if
absent) with the read/write pointer at the start; `openAppend` is the mode
that additionally moves the pointer to the end of the file. -/
inductive OpenMode where
  | openExisting
  | openAlways
  | openAppend
  | createNew
  | createAlways
deriving DecidableEq

/-- The shared-state fields a callback can write. -/
inductive SField where
  | running
  | logToFile
  | lastRng
  | inMenu
  | backPressedTime
  | okPressedTime
deriving DecidableEq

/-- One externally visible action of a callback body, recorded in program
order. -/
inductive Effect where
  | acquire
  | release
  | serialTx (bytes : String)
  | fileOpen (path : String) (mode : OpenMode)
  | fileWrite (bytes : String)
  | fileClose
  | write (f : SField)
deriving DecidableEq

/-- `generate_rng` (lines 29–36): `seed = furi_hal_random_get() ^ DWT->CYCCNT`,
then `for i: seed ^= times[i] + i`.  `times` holds the `uint32_t` raw signal
durations, `i` ranges over indices; the sum wraps modulo `2^32`. -/
def generate_rng (times : List Nat) (hw_random cyccnt : Nat) : Nat :=
  List.foldl (fun seed p => Nat.xor seed (w32 (w32 p.2 + p.1)))
    (Nat.xor (w32 hw_random) (w32 cyccnt)) times.enum

/-- The mixing fold exactly as the spec words it (section 4.1): start with
`seed = hw_seed XOR cycle_counter`; for each pulse at index `i` with
duration `d`, `seed = seed XOR (d + i)`.  Used only to compare against
`generate_rng`. -/
def mix_spec (pulses : List Nat) (hw_seed cycle_counter : Nat) : Nat :=
  List.foldl (fun seed p => Nat.xor seed (p.2 + p.1))
    (Nat.xor hw_seed cycle_counter) pulses.enum

theorem w32_eq_of_lt {x : Nat} (h : x < 4294967296) : w32 x = x :=
  Nat.mod_eq_of_lt h

/-- **C1.** For every pulse sequence and hardware pair, `generate_rng`
computes the spec's fold `seed = hw XOR cyc; seed = seed XOR (d + i)` —
provided every quantity fits in 32 bits, so that the C wrap-around
arithmetic coincides with natural-number arithmetic — and on the empty
pulse sequence it returns `hw XOR cyc` exactly. -/
theorem generate_rng_matches_spec (pulses : List Nat) (hw cyc : Nat)
    (hhw : hw < 4294967296) (hcyc : cyc < 4294967296)
    (hp : ∀ p ∈ pulses.enum, p.2 + p.1 < 4294967296) :
    generate_rng pulses hw cyc = mix_spec pulses hw cyc ∧
    generate_rng [] hw cyc = Nat.xor hw cyc := by
  constructor
  · unfold generate_rng mix_spec
    rw [w32_eq_of_lt hhw, w32_eq_of_lt hcyc]
    refine List.foldl_ext _ _ _ (fun a p hmem => ?_)
    have hsum := hp p hmem
    have hd : p.2 < 4294967296 := lt_of_le_of_lt (Nat.le_add_right _ _) hsum
    rw [w32_eq_of_lt hd, w32_eq_of_lt hsum]
  · unfold generate_rng
    simp [List.enum, w32_eq_of_lt hhw, w32_eq_of_lt hcyc]

/-- Witness for C1 at the spec's end-to-end example:
pulses `[100, 200, 150]`, `hw_seed = 0x1000`, `cycle_counter = 0x0F`. -/
theorem generate_rng_matches_spec_witness :
    generate_rng [100, 200, 150] 4096 15 = mix_spec [100, 200, 150] 4096 15 ∧
    generate_rng [] 4096 15 = Nat.xor 4096 15 :=
  generate_rng_matches_spec [100, 200, 150] 4096 15 (by decide) (by decide)
    (by decide)

/-- The bytes `snprintf(buf, MAX_BUF, "RNG:%lu\n", rng)` formats (line 41):
`"RNG:"`, the decimal digits of the value, a line feed.  The buffer of 64
bytes always suffices for a 32-bit value, so no truncation occurs. -/
def format_rng (rng : Nat) : String := "RNG:" ++ toString rng ++ "\n"

/-- `process_ir` (lines 39–53): transmit the formatted bytes on the serial
sink; if `log_to_file`, open the log with `FSAM_WRITE, FSOM_OPEN_ALWAYS`,
write the same bytes and close it; finally store the value in `last_rng`.
Returns the updated state and the effect trace in program order. -/
def process_ir (s : FlameTunnelState) (rng : Nat) :
    FlameTunnelState × List Effect :=
  let buf := format_rng rng
  let fx :=
    Effect.serialTx buf ::
      (if s.log_to_file then
        [Effect.fileOpen LOG_PATH OpenMode.openAlways,
         Effect.fileWrite buf,
         Effect.fileClose]
      else []) ++
      [Effect.write SField.lastRng]
  ({ s with last_rng := rng }, fx)

/-- `ir_callback` (lines 56–62): compute the value from the raw signal,
then run `process_ir` between `furi_mutex_acquire` and
`furi_mutex_release`. -/
def ir_callback (s : FlameTunnelState) (times : List Nat)
    (hw_random cyccnt : Nat) : FlameTunnelState × List Effect :=
  let rng := generate_rng times hw_random cyccnt
  let r := process_ir s rng
  (r.1, Effect.acquire :: r.2 ++ [Effect.release])

/-- `InputKey` values the Flipper input service delivers. -/
inductive InputKey where
  | up
  | down
  | right
  | left
  | ok
  | back
deriving DecidableEq

/-- Event types `input_cb` distinguishes; every type other than press and
release falls through both branches, collapsed here into `other`. -/
inductive InputType where
  | press
  | release
  | other
deriving DecidableEq

/-- An `InputEvent` as seen by `input_cb`. -/
structure InputEvent where
  key : InputKey
  type : InputType
deriving DecidableEq

/-- `input_cb` (lines 83–99), with `now = furi_get_tick()` passed
explicitly.  On a press the matching timestamp field is stored; on a
release the three-way `else if` chain runs: held Back stops the app, held
Ok toggles the menu, otherwise a short Ok press inside the menu toggles
logging.  The body takes no mutex.  Returns the updated state and the
trace of shared-state writes. -/
def input_cb (s : FlameTunnelState) (ev : InputEvent) (now : Nat) :
    FlameTunnelState × List Effect :=
  match ev.type with
  | InputType.press =>
      let s1 := if ev.key = InputKey.back
        then { s with back_pressed_time := now } else s
      let fx1 := if ev.key = InputKey.back
        then [Effect.write SField.backPressedTime] else []
      let s2 := if ev.key = InputKey.ok
        then { s1 with ok_pressed_time := now } else s1
      let fx2 := if ev.key = InputKey.ok
        then [Effect.write SField.okPressedTime] else []
      (s2, fx1 ++ fx2)
  | InputType.release =>
      if ev.key = InputKey.back ∧ HOLD_TIME_MS ≤ sub32 now s.back_pressed_time
      then ({ s with running := false }, [Effect.write SField.running])
      else if ev.key = InputKey.ok ∧ HOLD_TIME_MS ≤ sub32 now s.ok_pressed_time
      then ({ s with in_menu := !s.in_menu }, [Effect.write SField.inMenu])
      else if s.in_menu ∧ ev.key = InputKey.ok
      then ({ s with log_to_file := !s.log_to_file },
            [Effect.write SField.logToFile])
      else (s, [])
  | InputType.other => (s, [])

/-- The three event sources dispatched into the core: an infrared
reception (its raw durations plus the two hardware reads), an input event
at a tick, and a render tick (`draw` at lines 65–80 only reads the state,
so it leaves it unchanged). -/
inductive Event where
  | ir (times : List Nat) (hw_random cyccnt : Nat)
  | input (ev : InputEvent) (now : Nat)
  | tick

/-- One step of the event core: the state after handling one event. -/
def step (s : FlameTunnelState) (e : Event) : FlameTunnelState :=
  match e with
  | Event.ir times hw cyc => (ir_callback s times hw cyc).1
  | Event.input ev now => (input_cb s ev now).1
  | Event.tick => s

theorem sub32_eq {t0 t1 : Nat} (h1 : t0 ≤ t1) (h2 : t1 - t0 < 4294967296) :
    sub32 t1 t0 = t1 - t0 := by
  unfold sub32
  have h3 : t1 + 4294967296 - t0 = (t1 - t0) + 4294967296 := by omega
  rw [h3, Nat.add_mod_right, Nat.mod_eq_of_lt h2]

theorem input_cb_press_back (s : FlameTunnelState) (now : Nat) :
    input_cb s ⟨InputKey.back, InputType.press⟩ now =
      ({ s with back_pressed_time := now },
       [Effect.write SField.backPressedTime]) := by
  simp [input_cb]

theorem input_cb_press_ok (s : FlameTunnelState) (now : Nat) :
    input_cb s ⟨InputKey.ok, InputType.press⟩ now =
      ({ s with ok_pressed_time := now },
       [Effect.write SField.okPressedTime]) := by
  simp [input_cb]

theorem input_cb_release_back (s : FlameTunnelState) (now : Nat) :
    input_cb s ⟨InputKey.back, InputType.release⟩ now =
      if HOLD_TIME_MS ≤ sub32 now s.back_pressed_time
      then ({ s with running := false }, [Effect.write SField.running])
      else (s, []) := by
  simp [input_cb]

theorem input_cb_release_ok (s : FlameTunnelState) (now : Nat) :
    input_cb s ⟨InputKey.ok, InputType.release⟩ now =
      if HOLD_TIME_MS ≤ sub32 now s.ok_pressed_time
      then ({ s with in_menu := !s.in_menu }, [Effect.write SField.inMenu])
      else if s.in_menu
      then ({ s with log_to_file := !s.log_to_file },
            [Effect.write SField.logToFile])
      else (s, []) := by
  simp [input_cb]

theorem release_preserves_times (s : FlameTunnelState) (k : InputKey)
    (now : Nat) :
    (input_cb s ⟨k, InputType.release⟩ now).1.back_pressed_time =
      s.back_pressed_time ∧
    (input_cb s ⟨k, InputType.release⟩ now).1.ok_pressed_time =
      s.ok_pressed_time := by
  simp only [input_cb]
  split
  · exact ⟨rfl, rfl⟩
  · split
    · exact ⟨rfl, rfl⟩
    · split
      · exact ⟨rfl, rfl⟩
      · exact ⟨rfl, rfl⟩

/-- **C2, counterexample.** In the initial state no press of Back has ever
been recorded (`back_pressed_time` holds its initial 0), yet a Back
release at tick 1000 is not ignored: it sets `running := false`, because
the code compares against the stored timestamp 0 instead of tracking an
Idle state. -/
theorem release_without_press_not_ignored :
    (input_cb initState
        ⟨InputKey.back, InputType.release⟩ 1000).1.running = false ∧
    initState.running = true ∧
    initState.back_pressed_time = 0 := by decide

/-- **C2 (amended).** A release is ignored (state returned unchanged) only
when the 32-bit difference `now - stored_timestamp` is below
`HOLD_TIME_MS` — and, for Ok, the mode is not Menu; the stored timestamps
start at 0 and a release never clears them, so a release with no prior
press (and any repeated release) is handled against the stored value, not
ignored unconditionally. -/
theorem release_guard_behavior (s : FlameTunnelState) (now : Nat)
    (k : InputKey) :
    (sub32 now s.back_pressed_time < HOLD_TIME_MS →
      (input_cb s ⟨InputKey.back, InputType.release⟩ now).1 = s) ∧
    (HOLD_TIME_MS ≤ sub32 now s.back_pressed_time →
      (input_cb s ⟨InputKey.back, InputType.release⟩ now).1 =
        { s with running := false }) ∧
    (sub32 now s.ok_pressed_time < HOLD_TIME_MS → s.in_menu = false →
      (input_cb s ⟨InputKey.ok, InputType.release⟩ now).1 = s) ∧
    (HOLD_TIME_MS ≤ sub32 now s.ok_pressed_time →
      (input_cb s ⟨InputKey.ok, InputType.release⟩ now).1 =
        { s with in_menu := !s.in_menu }) ∧
    (sub32 now s.ok_pressed_time < HOLD_TIME_MS → s.in_menu = true →
      (input_cb s ⟨InputKey.ok, InputType.release⟩ now).1 =
        { s with log_to_file := !s.log_to_file }) ∧
    (input_cb s ⟨k, InputType.release⟩ now).1.back_pressed_time =
      s.back_pressed_time ∧
    (input_cb s ⟨k, InputType.release⟩ now).1.ok_pressed_time =
      s.ok_pressed_time := by
  refine ⟨?_, ?_, ?_, ?_, ?_,
    (release_preserves_times s k now).1, (release_preserves_times s k now).2⟩
  · intro h; rw [input_cb_release_back, if_neg (by omega)]
  · intro h; rw [input_cb_release_back, if_pos h]
  · intro h hm
    rw [input_cb_release_ok, if_neg (by omega), if_neg (by simp [hm])]
  · intro h; rw [input_cb_release_ok, if_pos h]
  · intro h hm
    rw [input_cb_release_ok, if_neg (by omega), if_pos (by simp [hm])]

/-- Witness for C2 (amended): from the initial state, a Back release at
tick 1000 (1000 ms after the stored timestamp 0) stops the app. -/
theorem release_guard_behavior_witness :
    (input_cb initState ⟨InputKey.back, InputType.release⟩ 1000).1 =
      { initState with running := false } :=
  (release_guard_behavior initState 1000 InputKey.back).2.1 (by decide)

/-- **C6.** A short Ok release while not in the menu (the spec's
"ToggleLogging applied while mode == Normal") leaves the whole state
unchanged: `logging_enabled` and every other field. -/
theorem toggle_logging_noop_in_normal_mode (s : FlameTunnelState)
    (now : Nat) (hm : s.in_menu = false)
    (hshort : sub32 now s.ok_pressed_time < HOLD_TIME_MS) :
    (input_cb s ⟨InputKey.ok, InputType.release⟩ now).1 = s := by
  rw [input_cb_release_ok, if_neg (by omega), if_neg (by simp [hm])]

/-- Witness for C6. -/
theorem toggle_logging_noop_in_normal_mode_witness :
    (input_cb initState ⟨InputKey.ok, InputType.release⟩ 500).1 =
      initState :=
  toggle_logging_noop_in_normal_mode initState 500 (by decide) (by decide)

/-- **C7.** At most one gesture action takes effect per release event: the
resulting state is the old one or differs from it in exactly one of
`running`, `in_menu`, `log_to_file`; in particular a held Ok release while
in the menu only flips `in_menu` (never also `log_to_file`), and a held
Back release only clears `running`. -/
theorem one_action_per_release (s : FlameTunnelState) (ev : InputEvent)
    (now : Nat) (hrel : ev.type = InputType.release) :
    ((input_cb s ev now).1 = s ∨
     (input_cb s ev now).1 = { s with running := false } ∨
     (input_cb s ev now).1 = { s with in_menu := !s.in_menu } ∨
     (input_cb s ev now).1 = { s with log_to_file := !s.log_to_file }) ∧
    (s.in_menu = true → HOLD_TIME_MS ≤ sub32 now s.ok_pressed_time →
      (input_cb s ⟨InputKey.ok, InputType.release⟩ now).1 =
        { s with in_menu := false }) ∧
    (HOLD_TIME_MS ≤ sub32 now s.back_pressed_time →
      (input_cb s ⟨InputKey.back, InputType.release⟩ now).1 =
        { s with running := false }) := by
  refine ⟨?_, ?_, ?_⟩
  · rcases ev with ⟨k, t⟩
    cases hrel
    simp only [input_cb]
    split
    · right; left; rfl
    · split
      · right; right; left; rfl
      · split
        · right; right; right; rfl
        · left; rfl
  · intro hm hheld
    rw [input_cb_release_ok, if_pos hheld]
    simp [hm]
  · intro hheld
    rw [input_cb_release_back, if_pos hheld]

/-- Witness for C7: a held Back release from the initial state at tick
2000 stops the app and changes nothing else. -/
theorem one_action_per_release_witness :
    (input_cb initState ⟨InputKey.back, InputType.release⟩ 2000).1 =
      { initState with running := false } :=
  (one_action_per_release initState ⟨InputKey.back, InputType.release⟩
    2000 rfl).2.2 (by decide)

/-- **C3.** A press of Back or Ok at `t0` followed by its release at `t1`
(no wrap-around: `t0 ≤ t1`, `t1 - t0 < 2^32`) is classified held exactly
when `t1 - t0 ≥ HOLD_TIME_MS = 1000`: held Back clears `running`, held Ok
toggles the mode, and a short release of either key does neither.  At
`t1 - t0 = 999` this gives short, at `t1 - t0 = 1000` held. -/
theorem hold_threshold_boundary (s : FlameTunnelState) (t0 t1 : Nat)
    (h01 : t0 ≤ t1) (hlt : t1 - t0 < 4294967296) :
    (HOLD_TIME_MS ≤ t1 - t0 →
      (input_cb (input_cb s ⟨InputKey.back, InputType.press⟩ t0).1
          ⟨InputKey.back, InputType.release⟩ t1).1.running = false ∧
      (input_cb (input_cb s ⟨InputKey.ok, InputType.press⟩ t0).1
          ⟨InputKey.ok, InputType.release⟩ t1).1.in_menu = !s.in_menu) ∧
    (t1 - t0 < HOLD_TIME_MS →
      (input_cb (input_cb s ⟨InputKey.back, InputType.press⟩ t0).1
          ⟨InputKey.back, InputType.release⟩ t1).1 =
        (input_cb s ⟨InputKey.back, InputType.press⟩ t0).1 ∧
      (input_cb (input_cb s ⟨InputKey.ok, InputType.press⟩ t0).1
          ⟨InputKey.ok, InputType.release⟩ t1).1.running = s.running ∧
      (input_cb (input_cb s ⟨InputKey.ok, InputType.press⟩ t0).1
          ⟨InputKey.ok, InputType.release⟩ t1).1.in_menu = s.in_menu) := by
  have hsub := sub32_eq h01 hlt
  constructor
  · intro hheld
    constructor
    · rw [input_cb_press_back, input_cb_release_back]
      rw [if_pos (by simpa [hsub] using hheld)]
    · rw [input_cb_press_ok, input_cb_release_ok]
      rw [if_pos (by simpa [hsub] using hheld)]
  · intro hshort
    refine ⟨?_, ?_⟩
    · rw [input_cb_press_back, input_cb_release_back]
      rw [if_neg (by simp [hsub]; omega)]
    · rw [input_cb_press_ok, input_cb_release_ok]
      rw [if_neg (by simp [hsub]; omega)]
      constructor
      · split <;> rfl
      · split <;> rfl

/-- Witness for C3 at the boundary: Ok pressed at `t0 = 0` and released at
`t1 = 1000` toggles the mode (the spec's end-to-end scenario). -/
theorem hold_threshold_boundary_witness :
    (input_cb (input_cb initState ⟨InputKey.ok, InputType.press⟩ 0).1
        ⟨InputKey.ok, InputType.release⟩ 1000).1.in_menu =
      !initState.in_menu :=
  ((hold_threshold_boundary initState 0 1000 (by decide) (by decide)).1
    (by decide)).2

theorem input_cb_running (s : FlameTunnelState) (ev : InputEvent)
    (now : Nat) :
    (input_cb s ev now).1.running = s.running ∨
    (input_cb s ev now).1.running = false := by
  rcases ev with ⟨k, t⟩
  cases t with
  | press =>
      left
      simp only [input_cb]
      split <;> split <;> rfl
  | release =>
      simp only [input_cb]
      split
      · right; rfl
      · split
        · left; rfl
        · split
          · left; rfl
          · left; rfl
  | other => left; rfl

/-- **C5.** Once `running` is false it stays false: no sequence of further
events (infrared reception, input event, render tick) handled by `step`
ever makes it true again. -/
theorem running_false_preserved (s : FlameTunnelState) (es : List Event)
    (h : s.running = false) :
    (List.foldl step s es).running = false := by
  induction es generalizing s with
  | nil => exact h
  | cons e es ih =>
      apply ih
      cases e with
      | ir times hw cyc => simpa [step, ir_callback, process_ir] using h
      | input ev now =>
          rcases input_cb_running s ev now with hr | hr
          · show (input_cb s ev now).1.running = false
            rw [hr]; exact h
          · exact hr
      | tick => exact h

/-- Witness for C5: with `running` already false, a tick, an Ok press and
an infrared event leave it false. -/
theorem running_false_preserved_witness :
    (List.foldl step { initState with running := false }
      [Event.tick, Event.input ⟨InputKey.ok, InputType.press⟩ 5,
       Event.ir [100, 200] 7 9]).running = false :=
  running_false_preserved { initState with running := false }
    [Event.tick, Event.input ⟨InputKey.ok, InputType.press⟩ 5,
     Event.ir [100, 200] 7 9] (by decide)

/-- **C8.** Within one infrared event the sink writes come first: the
effect trace of `process_ir` ends with the single write to `last_rng`, the
serial transmission of the formatted value precedes it (as does the log
write whenever logging is enabled), and the state afterwards holds exactly
the value of that attempted transmission. -/
theorem sink_writes_before_state_update (s : FlameTunnelState)
    (rng : Nat) :
    ∃ pre,
      (process_ir s rng).2 = pre ++ [Effect.write SField.lastRng] ∧
      Effect.serialTx (format_rng rng) ∈ pre ∧
      (s.log_to_file = true → Effect.fileWrite (format_rng rng) ∈ pre) ∧
      (∀ f, Effect.write f ∉ pre) ∧
      (process_ir s rng).1.last_rng = rng := by
  refine ⟨Effect.serialTx (format_rng rng) ::
    (if s.log_to_file then
      [Effect.fileOpen LOG_PATH OpenMode.openAlways,
       Effect.fileWrite (format_rng rng), Effect.fileClose]
    else []), ?_, ?_, ?_, ?_, rfl⟩
  · simp [process_ir]
  · exact List.mem_cons_self _ _
  · intro h; simp [h]
  · intro f
    cases hlog : s.log_to_file <;> simp [hlog]

/-- Witness for C8 with logging enabled and value 7. -/
theorem sink_writes_before_state_update_witness :
    ∃ pre,
      (process_ir { initState with log_to_file := true } 7).2 =
        pre ++ [Effect.write SField.lastRng] ∧
      Effect.serialTx (format_rng 7) ∈ pre ∧
      ({ initState with log_to_file := true }.log_to_file = true →
        Effect.fileWrite (format_rng 7) ∈ pre) ∧
      (∀ f, Effect.write f ∉ pre) ∧
      (process_ir { initState with log_to_file := true } 7).1.last_rng =
        7 :=
  sink_writes_before_state_update { initState with log_to_file := true } 7

/-- **C10.** The infrared handling path only touches `last_rng`: after
`process_ir` the value field holds the new entropy value and `running`,
`in_menu`, `log_to_file` and both press timestamps are exactly as
before. -/
theorem process_ir_frame (s : FlameTunnelState) (rng : Nat) :
    (process_ir s rng).1.last_rng = rng ∧
    (process_ir s rng).1.running = s.running ∧
    (process_ir s rng).1.log_to_file = s.log_to_file ∧
    (process_ir s rng).1.in_menu = s.in_menu ∧
    (process_ir s rng).1.back_pressed_time = s.back_pressed_time ∧
    (process_ir s rng).1.ok_pressed_time = s.ok_pressed_time :=
  ⟨rfl, rfl, rfl, rfl, rfl, rfl⟩

/-- **C4 fails on the code.** With logging enabled, `process_ir` opens the
log file with `FSOM_OPEN_ALWAYS` — open-or-create with the write pointer
at the start of the file — and with no other mode; that is not the
append-or-create mode (`FSOM_OPEN_APPEND`) the claim states, so each
record overwrites the start of the log instead of being appended. -/
theorem log_opened_with_open_always_not_append :
    (process_ir { initState with log_to_file := true } 7).2 =
      [Effect.serialTx "RNG:7\n",
       Effect.fileOpen LOG_PATH OpenMode.openAlways,
       Effect.fileWrite "RNG:7\n",
       Effect.fileClose,
       Effect.write SField.lastRng] ∧
    OpenMode.openAlways ≠ OpenMode.openAppend := by decide

/-- **C9 fails on the code.** `input_cb` mutates the shared state with no
mutex operation anywhere in its trace — here a held Back release from the
initial state at tick 1000 writes `running` without `furi_mutex_acquire`
— while the infrared path does wrap its writes in acquire/release. -/
theorem input_mutation_without_mutex :
    (input_cb initState ⟨InputKey.back, InputType.release⟩ 1000).2 =
      [Effect.write SField.running] ∧
    Effect.acquire ∉
      (input_cb initState ⟨InputKey.back, InputType.release⟩ 1000).2 ∧
    Effect.acquire ∈ (ir_callback initState [] 0 0).2 ∧
    Effect.release ∈ (ir_callback initState [] 0 0).2 := by decide
